import Mathlib

/-!
Shallow embedding of `src/warmup/sockets/echo_client.py`:

    from socket import socket, AF_INET, SOCK_STREAM

    def main(addr):
        sock = socket(AF_INET, SOCK_STREAM)
        sock.connect(addr)
        msg = input("Say >")
        sock.sendall(msg.encode('utf-8'))
        response = sock.recv(len(msg))
        print("Received >", response.decode('utf-8'))

    main(('localhost', 12345))

The program is modelled as a function of an environment (whether the
connect succeeds, the line the user types, and the bytes the peer has
made available to the single `recv` as a function of the bytes sent),
producing the ordered list of I/O events the run performs together with
its outcome (normal termination or an uncaught runtime error).  Bytes
are natural numbers < 256; `str.encode('utf-8')` and
`bytes.decode('utf-8')` are embedded as a faithful UTF-8 encoder and
strict decoder over byte lists.
-/

namespace EchoClient

/-- A byte string, as Python `bytes`: a list of byte values. -/
abbrev Bytes := List Nat

/-- One UTF-8 code unit sequence for a single code point, as produced by
Python `str.encode('utf-8')` for that character. -/
def utf8EncodeChar (c : Char) : Bytes :=
  if c.toNat < 128 then [c.toNat]
  else if c.toNat < 2048 then
    [192 + c.toNat / 64, 128 + c.toNat % 64]
  else if c.toNat < 65536 then
    [224 + c.toNat / 4096, 128 + c.toNat / 64 % 64, 128 + c.toNat % 64]
  else
    [240 + c.toNat / 262144, 128 + c.toNat / 4096 % 64,
     128 + c.toNat / 64 % 64, 128 + c.toNat % 64]

/-- Python `msg.encode('utf-8')`: the concatenation of the UTF-8
encodings of the code points of `msg`. -/
def utf8Encode (s : String) : Bytes :=
  (s.data.map utf8EncodeChar).flatten

/-- A UTF-8 continuation byte: `0x80 ≤ b < 0xC0`. -/
def isCont (b : Nat) : Bool :=
  128 ≤ b && b < 192

/-- Decode one UTF-8 sequence from lead byte `b` followed by `rest`:
the decoded code point and the bytes after the sequence, or `none` on a
stray continuation byte, truncated sequence, overlong encoding,
surrogate code point or value above U+10FFFF, as Python's strict
decoder. -/
def utf8DecodeStep (b : Nat) (rest : Bytes) : Option (Char × Bytes) :=
  if b < 128 then some (Char.ofNat b, rest)
  else if b < 194 then none
  else if b < 224 then
    match rest with
    | b1 :: rest2 =>
      if isCont b1 then
        some (Char.ofNat ((b - 192) * 64 + (b1 - 128)), rest2)
      else none
    | [] => none
  else if b < 240 then
    match rest with
    | b1 :: b2 :: rest3 =>
      if (if b = 224 then 160 ≤ b1 && b1 < 192
          else if b = 237 then 128 ≤ b1 && b1 < 160
          else isCont b1) && isCont b2 then
        some (Char.ofNat ((b - 224) * 4096 + (b1 - 128) * 64 + (b2 - 128)), rest3)
      else none
    | _ => none
  else if b < 245 then
    match rest with
    | b1 :: b2 :: b3 :: rest4 =>
      if (if b = 240 then 144 ≤ b1 && b1 < 192
          else if b = 244 then 128 ≤ b1 && b1 < 144
          else isCont b1) && isCont b2 && isCont b3 then
        some (Char.ofNat ((b - 240) * 262144 + (b1 - 128) * 4096 +
                          (b2 - 128) * 64 + (b3 - 128)), rest4)
      else none
    | _ => none
  else none

/-- Fuel-driven loop of `utf8DecodeStep` over a byte list.  Every
successful step consumes at least the lead byte, so fuel equal to the
list length (as supplied by `utf8DecodeList`) always suffices and the
out-of-fuel branch is unreachable there. -/
def utf8DecodeFuel : Nat → Bytes → Option (List Char)
  | _, [] => some []
  | 0, _ :: _ => none
  | n + 1, b :: rest =>
    match utf8DecodeStep b rest with
    | some (c, rest2) =>
      match utf8DecodeFuel n rest2 with
      | some cs => some (c :: cs)
      | none => none
    | none => none

/-- Strict UTF-8 decoding of a byte list into code points, as Python
`bytes.decode('utf-8')` with the default strict error handler. -/
def utf8DecodeList (bs : Bytes) : Option (List Char) :=
  utf8DecodeFuel bs.length bs

/-- Python `response.decode('utf-8')`: `some` of the decoded string, or
`none` when the byte list is not valid UTF-8 (a `UnicodeDecodeError`). -/
def utf8Decode (bs : Bytes) : Option String :=
  match utf8DecodeList bs with
  | some cs => some (String.mk cs)
  | none => none

/-- True when the character is ASCII (code point below 128). -/
def asciiChar (c : Char) : Bool :=
  c.toNat < 128

/-- True when every character of the string is ASCII. -/
def asciiString (s : String) : Bool :=
  s.data.all asciiChar

/-- The observable I/O steps of the script, in the order performed. -/
inductive Event where
  /-- The call socket(AF_INET, SOCK_STREAM). -/
  | createSocket : Event
  /-- The call sock.connect(addr). -/
  | connectAttempt (host : String) (port : Nat) : Event
  /-- The call input("Say >"), recording the prompt shown and the line read. -/
  | promptInput (prompt : String) (line : String) : Event
  /-- The call sock.sendall(...), recording the bytes transmitted. -/
  | sendBytes (bytes : Bytes) : Event
  /-- The call sock.recv(count), recording the requested count and bytes returned. -/
  | recvBytes (count : Nat) (got : Bytes) : Event
  /-- The call print(...): one line written to standard output. -/
  | printLine (s : String) : Event
deriving DecidableEq, Repr

/-- An uncaught Python runtime error terminating the process. -/
inductive Err where
  /-- The connect call failed: the remote address is unreachable. -/
  | connectRefused : Err
  /-- The decode of the response failed: bytes are not valid UTF-8. -/
  | unicodeDecodeError : Err
deriving DecidableEq, Repr

/-- The environment a run executes against: whether the connect succeeds,
the line the user types at the prompt, and the bytes the peer has made
available to the single `recv` call, as a function of the bytes sent. -/
structure Env where
  connectOk : Bool
  inputLine : String
  serverResp : Bytes → Bytes

/-- The embedding of `main(addr)`: the ordered event trace of the run,
paired with its outcome (`Except.ok ()` for normal termination,
`Except.error e` for an uncaught runtime error).  `sock.recv(n)` returns
the first `n` available bytes, fewer when fewer are available;
`len(msg)` is the character count of `msg`, matching Python `len` on
`str`. -/
def main (addr : String × Nat) (env : Env) : List Event × Except Err Unit :=
  let t0 : List Event := [Event.createSocket, Event.connectAttempt addr.1 addr.2]
  if env.connectOk then
    let msg := env.inputLine
    let sent := utf8Encode msg
    let got := (env.serverResp sent).take msg.length
    let t1 := t0 ++ [Event.promptInput "Say >" msg,
                     Event.sendBytes sent,
                     Event.recvBytes msg.length got]
    match utf8Decode got with
    | some r => (t1 ++ [Event.printLine ("Received > " ++ r)], Except.ok ())
    | none => (t1, Except.error Err.unicodeDecodeError)
  else
    (t0, Except.error Err.connectRefused)

/-- The top-level call `main(('localhost', 12345))`. -/
def program (env : Env) : List Event × Except Err Unit :=
  main ("localhost", 12345) env

/-- Recognises the terminal-read event. -/
def isPromptEvent : Event → Bool
  | Event.promptInput _ _ => true
  | _ => false

/-- Recognises the send event. -/
def isSendEvent : Event → Bool
  | Event.sendBytes _ => true
  | _ => false

/-- Recognises the receive event. -/
def isRecvEvent : Event → Bool
  | Event.recvBytes _ _ => true
  | _ => false

/-- Recognises the standard-output event. -/
def isPrintEvent : Event → Bool
  | Event.printLine _ => true
  | _ => false

/-- Recognises the connect event. -/
def isConnectEvent : Event → Bool
  | Event.connectAttempt _ _ => true
  | _ => false

/-- The position of each event kind in the script's fixed order. -/
def eventKind : Event → Nat
  | Event.createSocket => 0
  | Event.connectAttempt _ _ => 1
  | Event.promptInput _ _ => 2
  | Event.sendBytes _ => 3
  | Event.recvBytes _ _ => 4
  | Event.printLine _ => 5

/-- An ASCII character encodes to the single byte of its code point. -/
theorem utf8EncodeChar_ascii (c : Char) (h : c.toNat < 128) :
    utf8EncodeChar c = [c.toNat] := by
  simp [utf8EncodeChar, h]

/-- Every character encodes to at least one byte. -/
theorem utf8EncodeChar_length_pos (c : Char) :
    1 ≤ (utf8EncodeChar c).length := by
  unfold utf8EncodeChar
  split <;> try simp
  split <;> try simp
  split <;> simp

/-- A character encodes to exactly one byte precisely when it is ASCII. -/
theorem utf8EncodeChar_length_eq_one (c : Char) :
    (utf8EncodeChar c).length = 1 ↔ c.toNat < 128 := by
  unfold utf8EncodeChar
  split
  · simp_all
  · split
    · simp_all
    · split <;> simp_all

/-- On an all-ASCII character list, the UTF-8 encoding is the list of the
code points themselves. -/
theorem utf8Encode_ascii_list (cs : List Char) (h : ∀ c ∈ cs, c.toNat < 128) :
    (cs.map utf8EncodeChar).flatten = cs.map Char.toNat := by
  induction cs with
  | nil => simp
  | cons c cs ih =>
    simp only [List.map_cons, List.flatten_cons]
    rw [utf8EncodeChar_ascii c (h c (List.mem_cons_self c cs)),
        ih (fun x hx => h x (List.mem_cons_of_mem c hx))]
    rfl

/-- On an all-ASCII string, the UTF-8 encoding is the list of the code
points of its characters. -/
theorem utf8Encode_ascii (s : String) (h : asciiString s = true) :
    utf8Encode s = s.data.map Char.toNat := by
  refine utf8Encode_ascii_list s.data fun c hc => ?_
  have := (List.all_eq_true.mp h) c hc
  simpa [asciiChar] using this

/-- Decoding an ASCII lead byte consumes exactly that byte. -/
theorem utf8DecodeStep_ascii (b : Nat) (rest : Bytes) (h : b < 128) :
    utf8DecodeStep b rest = some (Char.ofNat b, rest) := by
  simp [utf8DecodeStep, h]

/-- With fuel equal to the character count, decoding the code points of
ASCII characters recovers the characters. -/
theorem utf8DecodeFuel_ascii (cs : List Char) (h : ∀ c ∈ cs, c.toNat < 128) :
    utf8DecodeFuel cs.length (cs.map Char.toNat) = some cs := by
  induction cs with
  | nil => rfl
  | cons c cs ih =>
    have hc : c.toNat < 128 := h c (List.mem_cons_self c cs)
    have ihh := ih (fun x hx => h x (List.mem_cons_of_mem c hx))
    show utf8DecodeFuel (cs.length + 1) (c.toNat :: cs.map Char.toNat) =
      some (c :: cs)
    simp only [utf8DecodeFuel, utf8DecodeStep_ascii c.toNat _ hc, ihh,
               Char.ofNat_toNat]

/-- Decoding the code points of ASCII characters recovers the characters. -/
theorem utf8DecodeList_ascii (cs : List Char) (h : ∀ c ∈ cs, c.toNat < 128) :
    utf8DecodeList (cs.map Char.toNat) = some cs := by
  rw [utf8DecodeList, List.length_map]
  exact utf8DecodeFuel_ascii cs h

/-- Round trip on an all-ASCII string: decoding its UTF-8 encoding gives
the string back. -/
theorem utf8Decode_utf8Encode_ascii (s : String) (h : asciiString s = true) :
    utf8Decode (utf8Encode s) = some s := by
  rw [utf8Encode_ascii s h, utf8Decode,
      utf8DecodeList_ascii s.data fun c hc => by
        simpa [asciiChar] using (List.all_eq_true.mp h) c hc]

/-- The character count of a list never exceeds the byte count of its
UTF-8 encoding. -/
theorem length_le_utf8Encode_list (cs : List Char) :
    cs.length ≤ ((cs.map utf8EncodeChar).flatten).length := by
  induction cs with
  | nil => simp
  | cons c cs ih =>
    simp only [List.length_cons, List.map_cons, List.flatten_cons,
               List.length_append]
    have := utf8EncodeChar_length_pos c
    omega

/-- The character count of a string never exceeds the byte count of its
UTF-8 encoding. -/
theorem length_le_utf8Encode (s : String) :
    s.length ≤ (utf8Encode s).length :=
  length_le_utf8Encode_list s.data

/-- The byte count of the UTF-8 encoding equals the character count
precisely on all-ASCII lists. -/
theorem utf8Encode_length_eq_iff_list (cs : List Char) :
    ((cs.map utf8EncodeChar).flatten).length = cs.length ↔
      cs.all asciiChar = true := by
  induction cs with
  | nil => simp
  | cons c cs ih =>
    simp only [List.map_cons, List.flatten_cons, List.length_append,
               List.length_cons, List.all_cons, Bool.and_eq_true]
    have h1 := utf8EncodeChar_length_pos c
    have h2 := length_le_utf8Encode_list cs
    constructor
    · intro h
      have hc1 : (utf8EncodeChar c).length = 1 := by omega
      have hcs : ((cs.map utf8EncodeChar).flatten).length = cs.length := by omega
      exact ⟨by simpa [asciiChar] using (utf8EncodeChar_length_eq_one c).mp hc1,
             ih.mp hcs⟩
    · intro ⟨ha, hall⟩
      have hc1 : (utf8EncodeChar c).length = 1 :=
        (utf8EncodeChar_length_eq_one c).mpr (by simpa [asciiChar] using ha)
      have hcs := ih.mpr hall
      omega

/-- The byte count of a string's UTF-8 encoding equals its character
count precisely when the string is all ASCII. -/
theorem utf8Encode_length_eq_iff (s : String) :
    (utf8Encode s).length = s.length ↔ asciiString s = true :=
  utf8Encode_length_eq_iff_list s.data

/-- On a connected run, the trace contains exactly one receive event: a
request for `inputLine.length` bytes answered with the first
`inputLine.length` bytes the server made available. -/
theorem recv_event_eq (host : String) (port : Nat) (env : Env)
    (hc : env.connectOk = true) :
    (main (host, port) env).1.filter isRecvEvent =
      [Event.recvBytes env.inputLine.length
        ((env.serverResp (utf8Encode env.inputLine)).take env.inputLine.length)] := by
  cases hd : utf8Decode
      ((env.serverResp (utf8Encode env.inputLine)).take env.inputLine.length) with
  | some r => simp [main, hc, hd, List.filter, isRecvEvent]
  | none => simp [main, hc, hd, List.filter, isRecvEvent]

/-- C1: run against a server that echoes back exactly the bytes it
receives, on an ASCII input line the program performs the full event
sequence, the single receive returns all requested bytes (the whole
encoding), and the one standard-output line is the string
`Received > ` followed by the input unchanged; the run terminates
normally. -/
theorem echo_ascii_prints_input_unchanged (host : String) (port : Nat) (env : Env)
    (hc : env.connectOk = true)
    (ha : asciiString env.inputLine = true)
    (he : ∀ bs, env.serverResp bs = bs) :
    main (host, port) env =
      ([Event.createSocket, Event.connectAttempt host port,
        Event.promptInput "Say >" env.inputLine,
        Event.sendBytes (utf8Encode env.inputLine),
        Event.recvBytes env.inputLine.length (utf8Encode env.inputLine),
        Event.printLine ("Received > " ++ env.inputLine)], Except.ok ()) := by
  have hlen : (utf8Encode env.inputLine).length = env.inputLine.length :=
    (utf8Encode_length_eq_iff env.inputLine).mpr ha
  have htake : (utf8Encode env.inputLine).take env.inputLine.length =
      utf8Encode env.inputLine :=
    List.take_of_length_le (le_of_eq hlen)
  have hdec := utf8Decode_utf8Encode_ascii env.inputLine ha
  simp [main, hc, he, htake, hdec]

/-- C1 witness: against the identity echo server, input `hello` yields
the output line `Received > hello`. -/
theorem echo_ascii_prints_input_unchanged_witness :
    main ("localhost", 12345) ⟨true, "hello", fun bs => bs⟩ =
      ([Event.createSocket, Event.connectAttempt "localhost" 12345,
        Event.promptInput "Say >" "hello",
        Event.sendBytes [104, 101, 108, 108, 111],
        Event.recvBytes 5 [104, 101, 108, 108, 111],
        Event.printLine "Received > hello"], Except.ok ()) :=
  echo_ascii_prints_input_unchanged "localhost" 12345
    ⟨true, "hello", fun bs => bs⟩ rfl (by decide) (fun bs => rfl)

/-- C2: the single receive requests exactly the character length of the
input line (not its encoded byte length); that count never exceeds the
number of bytes sent, equals it precisely when the input is pure ASCII,
and under-reads the true UTF-8 byte length for any non-ASCII input. -/
theorem recv_count_is_char_length (host : String) (port : Nat) (env : Env)
    (hc : env.connectOk = true) :
    (main (host, port) env).1.filter isRecvEvent =
      [Event.recvBytes env.inputLine.length
        ((env.serverResp (utf8Encode env.inputLine)).take env.inputLine.length)] ∧
    env.inputLine.length ≤ (utf8Encode env.inputLine).length ∧
    (env.inputLine.length = (utf8Encode env.inputLine).length ↔
      asciiString env.inputLine = true) ∧
    (asciiString env.inputLine = false →
      env.inputLine.length < (utf8Encode env.inputLine).length) := by
  refine ⟨recv_event_eq host port env hc,
          length_le_utf8Encode env.inputLine, ?_, ?_⟩
  · constructor
    · intro h
      exact (utf8Encode_length_eq_iff env.inputLine).mp h.symm
    · intro h
      exact ((utf8Encode_length_eq_iff env.inputLine).mpr h).symm
  · intro h
    have hle := length_le_utf8Encode env.inputLine
    rcases lt_or_eq_of_le hle with hlt | heq
    · exact hlt
    · rw [(utf8Encode_length_eq_iff env.inputLine).mp heq.symm] at h
      cases h

/-- C2 witness: with input é (one character, two UTF-8 bytes) the
receive requests one byte, strictly fewer than the two bytes sent. -/
theorem recv_count_is_char_length_witness :
    (main ("localhost", 12345) ⟨true, "é", fun bs => bs⟩).1.filter isRecvEvent =
      [Event.recvBytes 1 [195]] ∧
    (1 : Nat) ≤ 2 ∧
    ((1 : Nat) = 2 ↔ asciiString "é" = true) ∧
    (asciiString "é" = false → (1 : Nat) < 2) :=
  recv_count_is_char_length "localhost" 12345 ⟨true, "é", fun bs => bs⟩ rfl

/-- C3 counterexample: with input é (two encoded bytes) and a server
that echoes back only the first byte — fewer bytes than were sent — the
run does raise an error (an uncaught UnicodeDecodeError) instead of
printing the truncated bytes, so truncated reads are not error-free for
every input string. -/
theorem truncated_read_counterexample :
    (utf8Encode "é").length = 2 ∧
    ((fun bs => List.take 1 bs) (utf8Encode "é")).length = 1 ∧
    (main ("localhost", 12345) ⟨true, "é", fun bs => List.take 1 bs⟩).2 =
      Except.error Err.unicodeDecodeError ∧
    (main ("localhost", 12345) ⟨true, "é", fun bs => List.take 1 bs⟩).1.filter
        isPrintEvent = [] :=
  ⟨rfl, rfl, rfl, rfl⟩

/-- Taking up to the list's own length and then up to `k` is the same
as taking up to `k`. -/
theorem take_min_of_length_eq {α : Type} (l : List α) (n k : Nat)
    (h : l.length = n) : l.take (n ⊓ k) = l.take k := by
  subst h
  rcases le_total l.length k with h2 | h2
  · rw [min_eq_left h2, List.take_of_length_le (le_refl l.length),
        List.take_of_length_le h2]
  · rw [min_eq_right h2]

/-- C3 amended: if the input line is pure ASCII and the server echoes
back only the first `k` bytes of what it received (fewer than were sent
whenever `k` is smaller), the program prints exactly the truncated
prefix it received, raising no error. -/
theorem truncated_read_ascii_prints_received (host : String) (port : Nat)
    (env : Env) (k : Nat)
    (hc : env.connectOk = true)
    (ha : asciiString env.inputLine = true)
    (hs : ∀ bs, env.serverResp bs = bs.take k) :
    (main (host, port) env).2 = Except.ok () ∧
    (main (host, port) env).1.filter isPrintEvent =
      [Event.printLine ("Received > " ++ String.mk (env.inputLine.data.take k))] := by
  have hasc : ∀ c ∈ env.inputLine.data, c.toNat < 128 := by
    intro c hcmem
    simpa [asciiChar] using (List.all_eq_true.mp ha) c hcmem
  have henc : utf8Encode env.inputLine = env.inputLine.data.map Char.toNat :=
    utf8Encode_ascii env.inputLine ha
  have hgot : ((utf8Encode env.inputLine).take k).take env.inputLine.length =
      (env.inputLine.data.take k).map Char.toNat := by
    rw [henc, List.take_take,
        take_min_of_length_eq _ _ k (by rw [List.length_map]; rfl),
        List.map_take]
  have hdec : utf8Decode (((utf8Encode env.inputLine).take k).take
      env.inputLine.length) = some (String.mk (env.inputLine.data.take k)) := by
    rw [hgot, utf8Decode, utf8DecodeList_ascii (env.inputLine.data.take k)
      (fun c hcmem => hasc c (List.take_subset k env.inputLine.data hcmem))]
  constructor
  · simp [main, hc, hs, hdec]
  · simp [main, hc, hs, hdec, List.filter, isPrintEvent]

/-- C3 amended witness: ASCII input `hello`, server echoes only the
first three bytes; the program prints `Received > hel` and terminates
normally. -/
theorem truncated_read_ascii_prints_received_witness :
    (main ("localhost", 12345) ⟨true, "hello", fun bs => bs.take 3⟩).2 =
      Except.ok () ∧
    (main ("localhost", 12345) ⟨true, "hello", fun bs => bs.take 3⟩).1.filter
        isPrintEvent = [Event.printLine "Received > hel"] :=
  truncated_read_ascii_prints_received "localhost" 12345
    ⟨true, "hello", fun bs => bs.take 3⟩ 3 rfl (by decide) (fun bs => rfl)

/-- C4: when the connect fails, the run terminates with the uncaught
connection error (a non-zero exit), its trace stops at the connect
attempt, and no output line — in particular no Received line — was
written. -/
theorem connect_failure_no_output (host : String) (port : Nat) (env : Env)
    (hc : env.connectOk = false) :
    (main (host, port) env).2 = Except.error Err.connectRefused ∧
    (main (host, port) env).1 =
      [Event.createSocket, Event.connectAttempt host port] ∧
    ∀ e ∈ (main (host, port) env).1, isPrintEvent e = false := by
  refine ⟨by simp [main, hc], by simp [main, hc], ?_⟩
  intro e he
  simp [main, hc] at he
  rcases he with h | h <;> simp [h, isPrintEvent]

/-- C4 witness: with an unreachable server the run errors out after the
connect attempt having printed nothing. -/
theorem connect_failure_no_output_witness :
    (main ("localhost", 12345) ⟨false, "hello", fun bs => bs⟩).2 =
      Except.error Err.connectRefused ∧
    (main ("localhost", 12345) ⟨false, "hello", fun bs => bs⟩).1 =
      [Event.createSocket, Event.connectAttempt "localhost" 12345] ∧
    ∀ e ∈ (main ("localhost", 12345) ⟨false, "hello", fun bs => bs⟩).1,
      isPrintEvent e = false :=
  connect_failure_no_output "localhost" 12345 ⟨false, "hello", fun bs => bs⟩ rfl

/-- C5: on every connected run the trace contains exactly one send
event, and it carries the complete UTF-8 encoding of the input line —
the single send is assumed to transmit all bytes, with no repetition to
flush a remainder. -/
theorem single_send_transmits_all (host : String) (port : Nat) (env : Env)
    (hc : env.connectOk = true) :
    (main (host, port) env).1.filter isSendEvent =
      [Event.sendBytes (utf8Encode env.inputLine)] := by
  cases hd : utf8Decode
      ((env.serverResp (utf8Encode env.inputLine)).take env.inputLine.length) with
  | some r => simp [main, hc, hd, List.filter, isSendEvent]
  | none => simp [main, hc, hd, List.filter, isSendEvent]

/-- C5 witness: input `hi` produces exactly one send event carrying both
encoded bytes. -/
theorem single_send_transmits_all_witness :
    (main ("localhost", 12345) ⟨true, "hi", fun bs => bs⟩).1.filter isSendEvent =
      [Event.sendBytes [104, 105]] :=
  single_send_transmits_all "localhost" 12345 ⟨true, "hi", fun bs => bs⟩ rfl

/-- C6: there is no error handler: in every environment the trace holds
at most one connect, one send and one receive (no retry or recovery),
and whenever the run ends in an error that error is the outcome of the
whole program and no output line was written. -/
theorem errors_fatal_and_uncaught (host : String) (port : Nat) (env : Env) :
    ((main (host, port) env).1.filter isConnectEvent).length ≤ 1 ∧
    ((main (host, port) env).1.filter isSendEvent).length ≤ 1 ∧
    ((main (host, port) env).1.filter isRecvEvent).length ≤ 1 ∧
    (∀ e : Err, (main (host, port) env).2 = Except.error e →
      ∀ ev ∈ (main (host, port) env).1, isPrintEvent ev = false) := by
  cases hc : env.connectOk with
  | false =>
    refine ⟨?_, ?_, ?_, ?_⟩ <;>
      simp [main, hc, List.filter, isConnectEvent, isSendEvent, isRecvEvent,
            isPrintEvent]
  | true =>
    cases hd : utf8Decode
        ((env.serverResp (utf8Encode env.inputLine)).take env.inputLine.length) with
    | some r =>
      refine ⟨?_, ?_, ?_, ?_⟩ <;>
        simp [main, hc, hd, List.filter, isConnectEvent, isSendEvent,
              isRecvEvent, isPrintEvent]
    | none =>
      refine ⟨?_, ?_, ?_, ?_⟩ <;>
        simp [main, hc, hd, List.filter, isConnectEvent, isSendEvent,
              isRecvEvent, isPrintEvent]

/-- C6 witness: at the environment where the echoed bytes of é are cut
to one byte the run errors, the trace holds one connect, one send and
one receive, and no output line was written. -/
theorem errors_fatal_and_uncaught_witness :
    ((main ("localhost", 12345) ⟨true, "é", fun bs => bs.take 1⟩).1.filter
        isConnectEvent).length ≤ 1 ∧
    ((main ("localhost", 12345) ⟨true, "é", fun bs => bs.take 1⟩).1.filter
        isSendEvent).length ≤ 1 ∧
    ((main ("localhost", 12345) ⟨true, "é", fun bs => bs.take 1⟩).1.filter
        isRecvEvent).length ≤ 1 ∧
    (∀ e : Err,
      (main ("localhost", 12345) ⟨true, "é", fun bs => bs.take 1⟩).2 =
        Except.error e →
      ∀ ev ∈ (main ("localhost", 12345) ⟨true, "é", fun bs => bs.take 1⟩).1,
        isPrintEvent ev = false) :=
  errors_fatal_and_uncaught "localhost" 12345 ⟨true, "é", fun bs => bs.take 1⟩

/-- C7: against a server that echoes back exactly what it received, the
bytes returned by the receive are a prefix of the bytes sent, because
the requested count — the character length of the input — never exceeds
the byte count transmitted. -/
theorem received_prefix_of_sent (host : String) (port : Nat) (env : Env)
    (hc : env.connectOk = true) (he : ∀ bs, env.serverResp bs = bs) :
    (∃ t, utf8Encode env.inputLine =
      ((env.serverResp (utf8Encode env.inputLine)).take env.inputLine.length)
        ++ t) ∧
    (main (host, port) env).1.filter isRecvEvent =
      [Event.recvBytes env.inputLine.length
        ((env.serverResp (utf8Encode env.inputLine)).take env.inputLine.length)] ∧
    env.inputLine.length ≤ (utf8Encode env.inputLine).length := by
  refine ⟨?_, recv_event_eq host port env hc, length_le_utf8Encode env.inputLine⟩
  refine ⟨(utf8Encode env.inputLine).drop env.inputLine.length, ?_⟩
  rw [he, List.take_append_drop]

/-- C7 witness: with input é against the identity echo server, the one
received byte 195 followed by the leftover byte 169 is the sent pair. -/
theorem received_prefix_of_sent_witness :
    (∃ t, utf8Encode "é" =
      ((fun bs => bs) (utf8Encode "é")).take ("é".length) ++ t) ∧
    (main ("localhost", 12345) ⟨true, "é", fun bs => bs⟩).1.filter isRecvEvent =
      [Event.recvBytes 1 [195]] ∧
    "é".length ≤ (utf8Encode "é").length :=
  received_prefix_of_sent "localhost" 12345 ⟨true, "é", fun bs => bs⟩ rfl
    (fun _ => rfl)

/-- C8: in every environment the run's event kinds form an initial
segment of the fixed order create socket, connect, terminal read, send,
receive, print; the trace always begins with the socket creation
followed by the connect attempt, and the terminal is read only on runs
whose connect succeeded. -/
theorem steps_in_fixed_order (host : String) (port : Nat) (env : Env) :
    (∃ t, (main (host, port) env).1.map eventKind ++ t = [0, 1, 2, 3, 4, 5]) ∧
    (main (host, port) env).1.take 2 =
      [Event.createSocket, Event.connectAttempt host port] ∧
    (∀ p l, Event.promptInput p l ∈ (main (host, port) env).1 →
      env.connectOk = true) := by
  cases hc : env.connectOk with
  | false =>
    refine ⟨⟨[2, 3, 4, 5], ?_⟩, ?_, ?_⟩ <;>
      simp [main, hc, eventKind]
  | true =>
    cases hd : utf8Decode
        ((env.serverResp (utf8Encode env.inputLine)).take env.inputLine.length) with
    | some r =>
      refine ⟨⟨[], ?_⟩, ?_, ?_⟩ <;>
        simp [main, hc, hd, eventKind]
    | none =>
      refine ⟨⟨[5], ?_⟩, ?_, ?_⟩ <;>
        simp [main, hc, hd, eventKind]

/-- C8 witness: a successful concrete run walks the six steps in order,
starts with socket creation and connect, and its terminal read implies
the connect succeeded. -/
theorem steps_in_fixed_order_witness :
    (∃ t, (main ("localhost", 12345) ⟨true, "hey", fun bs => bs⟩).1.map
      eventKind ++ t = [0, 1, 2, 3, 4, 5]) ∧
    (main ("localhost", 12345) ⟨true, "hey", fun bs => bs⟩).1.take 2 =
      [Event.createSocket, Event.connectAttempt "localhost" 12345] ∧
    (∀ p l, Event.promptInput p l ∈
        (main ("localhost", 12345) ⟨true, "hey", fun bs => bs⟩).1 →
      (Env.mk true "hey" fun bs => bs).connectOk = true) :=
  steps_in_fixed_order "localhost" 12345 ⟨true, "hey", fun bs => bs⟩

/-- C9: every run of the program that terminates normally read exactly
one terminal line at the prompt `Say >`, connected to the hard-coded
address localhost port 12345, and wrote exactly one standard-output
line: `Received > ` followed by the UTF-8 decoding of the received
bytes. -/
theorem successful_run_interface (env : Env)
    (h : (program env).2 = Except.ok ()) :
    (program env).1.filter isPromptEvent =
      [Event.promptInput "Say >" env.inputLine] ∧
    Event.connectAttempt "localhost" 12345 ∈ (program env).1 ∧
    ∃ r, utf8Decode
        ((env.serverResp (utf8Encode env.inputLine)).take env.inputLine.length) =
          some r ∧
      (program env).1.filter isPrintEvent =
        [Event.printLine ("Received > " ++ r)] := by
  cases hc : env.connectOk with
  | false => simp [program, main, hc] at h
  | true =>
    cases hd : utf8Decode
        ((env.serverResp (utf8Encode env.inputLine)).take env.inputLine.length) with
    | none => simp [program, main, hc, hd] at h
    | some r =>
      refine ⟨?_, ?_, r, rfl, ?_⟩ <;>
        simp [program, main, hc, hd, List.filter, isPromptEvent, isPrintEvent]

/-- C9 witness: the successful run on input `ok` prompted with `Say >`,
connected to localhost 12345, and printed `Received > ok`. -/
theorem successful_run_interface_witness :
    (program ⟨true, "ok", fun bs => bs⟩).1.filter isPromptEvent =
      [Event.promptInput "Say >" "ok"] ∧
    Event.connectAttempt "localhost" 12345 ∈ (program ⟨true, "ok", fun bs => bs⟩).1 ∧
    ∃ r, utf8Decode ((( fun bs => bs) (utf8Encode "ok")).take ("ok".length)) =
        some r ∧
      (program ⟨true, "ok", fun bs => bs⟩).1.filter isPrintEvent =
        [Event.printLine ("Received > " ++ r)] :=
  successful_run_interface ⟨true, "ok", fun bs => bs⟩ rfl

/-- C10: on an empty input line the program sends zero bytes, requests a
zero-byte receive that yields the empty byte string no matter what the
server supplies, prints the bare line `Received > ` and terminates
normally. -/
theorem empty_input_round_trip (host : String) (port : Nat) (env : Env)
    (hc : env.connectOk = true) (he : env.inputLine = "") :
    main (host, port) env =
      ([Event.createSocket, Event.connectAttempt host port,
        Event.promptInput "Say >" "", Event.sendBytes [],
        Event.recvBytes 0 [], Event.printLine "Received > "], Except.ok ()) := by
  cases env with
  | mk co il sr =>
    cases he
    cases hc
    rfl

/-- C10 witness: empty input against a server that would supply three
bytes still receives nothing, prints the bare Received line and ends
normally. -/
theorem empty_input_round_trip_witness :
    main ("localhost", 12345) ⟨true, "", fun _ => [9, 9, 9]⟩ =
      ([Event.createSocket, Event.connectAttempt "localhost" 12345,
        Event.promptInput "Say >" "", Event.sendBytes [],
        Event.recvBytes 0 [], Event.printLine "Received > "], Except.ok ()) :=
  empty_input_round_trip "localhost" 12345 ⟨true, "", fun _ => [9, 9, 9]⟩ rfl rfl

end EchoClient
